import Mathlib

/-!
Verification of the RAG chatbot frontend (React client).

This file shallowly embeds the session controller and the SSE stream
reducer of the frontend:

  * `ChatWindow.jsx` — the `handleSend` streaming loop, its per-line SSE
    frame handling, and the `updateMessages` wrapper;
  * `App.jsx` — session selection, deletion, the mount-time history
    refresh, and the `localStorage` persistence of the active session;
  * the portion of the platform the code relies on: `JSON.parse`
    (modelled by `Rag.jsonParse`, a recursive-descent parser for the
    JSON subset the application exchanges: null, booleans, integer
    numbers, strings with the common escapes, arrays and objects),
    JavaScript truthiness, string coercion, and — for the mid-stream
    session-switch race — React's remount-on-key semantics together
    with the eager functional-updater invocation of `dispatchSetState`
    on fibers with no pending lanes, deleted fibers included.

Definitions are written to be executable so concrete streams can be
evaluated inside proofs.
-/

namespace Rag

/-- A JSON value as produced by the platform JSON decoder. The model
covers the subset the application exchanges; numbers are integers. -/
inductive Json where
  | null : Json
  | bool (b : Bool) : Json
  | num (n : Int) : Json
  | str (s : String) : Json
  | arr (elems : List Json) : Json
  | obj (fields : List (String × Json)) : Json

/-- JavaScript truthiness of a JSON value: null is falsy, `false` is
falsy, 0 is falsy, the empty string is falsy; arrays and objects are
always truthy. -/
def truthyV : Json → Bool
  | Json.null => false
  | Json.bool b => b
  | Json.num n => decide (n ≠ 0)
  | Json.str s => decide (s ≠ "")
  | Json.arr _ => true
  | Json.obj _ => true

/-- Property access `payload.k` on a parsed JSON value: `none` models
JavaScript `undefined` (missing field, or access on a non-object that
has no such property). -/
def getField : Json → String → Option Json
  | Json.obj fields, k => fields.lookup k
  | _, _ => none

/-- Truthiness of a possibly-undefined value (`undefined` is falsy). -/
def jsTruthy : Option Json → Bool
  | some v => truthyV v
  | none => false

/-- The JavaScript expression `a || b` for a possibly-undefined `a`. -/
def jsOr : Option Json → Json → Json
  | some v, b => if truthyV v then v else b
  | none, b => b

mutual
/-- JavaScript string coercion of a JSON value, as performed by
`botText += payload.token`. -/
def jsToString : Json → String
  | Json.null => "null"
  | Json.bool b => cond b "true" "false"
  | Json.num n => toString n
  | Json.str s => s
  | Json.arr xs => String.intercalate "," (jsJoinElems xs)
  | Json.obj _ => "[object Object]"

/-- Elements of an array under `Array.prototype.join`: null elements
render as the empty string. -/
def jsJoinElems : List Json → List String
  | [] => []
  | Json.null :: rest => "" :: jsJoinElems rest
  | j :: rest => jsToString j :: jsJoinElems rest
end

/-- One character of a JSON escape sequence after a backslash. The
model covers the escapes the application can encounter. -/
def escChar (e : Char) : Option Char :=
  if e = 'n' then some '\n'
  else if e = 't' then some '\t'
  else if e = 'r' then some '\r'
  else if e = '"' then some '"'
  else if e = '\\' then some '\\'
  else if e = '/' then some '/'
  else if e = 'b' then some (Char.ofNat 8)
  else if e = 'f' then some (Char.ofNat 12)
  else none

/-- Body of a JSON string literal, after the opening quote; returns the
decoded string and the rest of the input after the closing quote. -/
def parseStringBody : List Char → Option (String × List Char)
  | [] => none
  | '"' :: cs => some ("", cs)
  | '\\' :: e :: cs =>
    match escChar e with
    | none => none
    | some c =>
      match parseStringBody cs with
      | none => none
      | some (s, rest) => some (c.toString ++ s, rest)
  | '\\' :: [] => none
  | c :: cs =>
    match parseStringBody cs with
    | none => none
    | some (s, rest) => some (c.toString ++ s, rest)

/-- Split the longest run of leading decimal digits off the input. -/
def takeDigits : List Char → List Char × List Char
  | [] => ([], [])
  | c :: cs =>
    if c.isDigit then
      let (ds, r) := takeDigits cs
      (c :: ds, r)
    else ([], c :: cs)

/-- Decimal value of a digit run. -/
def digitsToNat (ds : List Char) : Nat :=
  ds.foldl (fun n c => n * 10 + (c.toNat - '0'.toNat)) 0

/-- Whitespace accepted between JSON tokens. -/
def isJsonWs (c : Char) : Bool :=
  c = ' ' || c = '\n' || c = '\t' || c = '\r'

/-- Drop leading JSON whitespace. -/
def skipWs : List Char → List Char
  | [] => []
  | c :: cs => if isJsonWs c then skipWs cs else c :: cs

mutual
/-- Recursive-descent parser for one JSON value (fuel-indexed; the fuel
bounds nesting depth and is instantiated to the input length, which is
always sufficient). Returns the value and the unconsumed rest. -/
def parseValue : Nat → List Char → Option (Json × List Char)
  | 0, _ => none
  | Nat.succ fuel, cs =>
    match skipWs cs with
    | 'n' :: 'u' :: 'l' :: 'l' :: rest => some (Json.null, rest)
    | 't' :: 'r' :: 'u' :: 'e' :: rest => some (Json.bool true, rest)
    | 'f' :: 'a' :: 'l' :: 's' :: 'e' :: rest => some (Json.bool false, rest)
    | '"' :: rest =>
      match parseStringBody rest with
      | none => none
      | some (s, r) => some (Json.str s, r)
    | '\x5b' :: rest => parseElemsFirst fuel rest
    | '\x7b' :: rest => parseMembersFirst fuel rest
    | '-' :: rest =>
      match takeDigits rest with
      | ([], _) => none
      | (ds, r) => some (Json.num (-(digitsToNat ds : Int)), r)
    | c :: rest =>
      if c.isDigit then
        let (ds, r) := takeDigits (c :: rest)
        some (Json.num (digitsToNat ds), r)
      else none
    | [] => none

/-- After an opening square bracket: an empty array or the first
element followed by the tail of the array. -/
def parseElemsFirst : Nat → List Char → Option (Json × List Char)
  | 0, _ => none
  | Nat.succ fuel, cs =>
    match skipWs cs with
    | '\x5d' :: rest => some (Json.arr [], rest)
    | other =>
      match parseValue fuel other with
      | none => none
      | some (v, r) =>
        match parseElemsRest fuel r with
        | none => none
        | some (vs, r2) => some (Json.arr (v :: vs), r2)

/-- After one array element: either the closing bracket or a comma and
one more element; trailing commas are rejected. -/
def parseElemsRest : Nat → List Char → Option (List Json × List Char)
  | 0, _ => none
  | Nat.succ fuel, cs =>
    match skipWs cs with
    | '\x5d' :: rest => some ([], rest)
    | ',' :: rest =>
      match parseValue fuel rest with
      | none => none
      | some (v, r) =>
        match parseElemsRest fuel r with
        | none => none
        | some (vs, r2) => some (v :: vs, r2)
    | _ => none

/-- After an opening curly bracket: an empty object or the first
member followed by the tail of the object. -/
def parseMembersFirst : Nat → List Char → Option (Json × List Char)
  | 0, _ => none
  | Nat.succ fuel, cs =>
    match skipWs cs with
    | '\x7d' :: rest => some (Json.obj [], rest)
    | other =>
      match parseMember fuel other with
      | none => none
      | some (kv, r) =>
        match parseMembersRest fuel r with
        | none => none
        | some (kvs, r2) => some (Json.obj (kv :: kvs), r2)

/-- One `"key": value` member of an object. -/
def parseMember : Nat → List Char → Option ((String × Json) × List Char)
  | 0, _ => none
  | Nat.succ fuel, cs =>
    match skipWs cs with
    | '"' :: rest =>
      match parseStringBody rest with
      | none => none
      | some (k, r) =>
        match skipWs r with
        | ':' :: r2 =>
          match parseValue fuel r2 with
          | none => none
          | some (v, r3) => some ((k, v), r3)
        | _ => none
    | _ => none

/-- After one object member: either the closing bracket or a comma and
one more member; trailing commas are rejected. -/
def parseMembersRest : Nat → List Char → Option (List (String × Json) × List Char)
  | 0, _ => none
  | Nat.succ fuel, cs =>
    match skipWs cs with
    | '\x7d' :: rest => some ([], rest)
    | ',' :: rest =>
      match parseMember fuel rest with
      | none => none
      | some (kv, r) =>
        match parseMembersRest fuel r with
        | none => none
        | some (kvs, r2) => some (kv :: kvs, r2)
    | _ => none
end

/-- Model of the platform `JSON.parse` on the subset described above:
parse one value and require only whitespace to remain; any other input
fails (in the source a failure is a thrown exception, modelled here as
`none`). -/
def jsonParse (s : String) : Option Json :=
  match parseValue (s.length + 1) s.data with
  | none => none
  | some (v, rest) =>
    match skipWs rest with
    | [] => some v
    | _ => none

/-- Character-list core of the JavaScript `String.prototype.startsWith`
model: does the second list begin with the first? -/
def startsWithChars : List Char → List Char → Bool
  | [], _ => true
  | _ :: _, [] => false
  | p :: ps, c :: cs => p = c && startsWithChars ps cs

/-- Model of the JavaScript `s.startsWith(p)`. -/
def jsStartsWith (s p : String) : Bool :=
  startsWithChars p.data s.data

/-- Model of the JavaScript `s.slice(n)` for a non-negative index. -/
def jsSlice (s : String) (n : Nat) : String :=
  String.mk (s.data.drop n)

/-- Character-list core of the JavaScript `s.split('\n')` model: split
on newline characters, keeping empty fragments, never dropping input. -/
def splitNewlineChars : List Char → List (List Char)
  | [] => [[]]
  | c :: rest =>
    let r := splitNewlineChars rest
    if c = '\n' then [] :: r
    else
      match r with
      | [] => [[c]]
      | h :: t => (c :: h) :: t

/-- Model of the JavaScript `chunk.split('\n')`. -/
def jsSplitNewline (s : String) : List String :=
  (splitNewlineChars s.data).map String.mk

/-- Model of the JavaScript `s.trim()`: strip leading and trailing
whitespace. -/
def jsTrim (s : String) : String :=
  String.mk (((s.data.dropWhile Char.isWhitespace).reverse.dropWhile Char.isWhitespace).reverse)

/-- A chat message as kept in the ChatWindow state. A user message is
created in the source as an object without `sources` and `isTyping`
fields (both read back as undefined, i.e. null-ish and falsy); the
model materialises them as `Json.null` and `false`. -/
structure Message where
  role : String
  content : String
  sources : Json
  isTyping : Bool

/-- The user message appended by `handleSend`. -/
def userMsg (text : String) : Message :=
  { role := "user", content := text, sources := Json.null, isTyping := false }

/-- The placeholder assistant message appended by `handleSend` before
the stream is consumed. -/
def botPlaceholder : Message :=
  { role := "assistant", content := "", sources := Json.null, isTyping := true }

/-- The synthetic assistant message written by the catch branch of
`handleSend` on transport failure. -/
def errorReply : Message :=
  { role := "assistant"
    content := "⚠️ Error: Could not reach the backend. Make sure the server is running on port 8000."
    sources := Json.arr []
    isTyping := false }

/-- The in-place update `updated[updated.length - 1] = msg` performed by
every Reducer callback: replace the last element of the log. (On an
empty log the JavaScript statement stores under index -1, leaving the
array contents unchanged; `List.set` on the empty list likewise returns
the empty list.) -/
def replaceLast (l : List Message) (m : Message) : List Message :=
  l.set (l.length - 1) m

/-- The local state of the `handleSend` streaming loop: the running
text accumulator `botText`, the `sources` variable, and the component's
message log as maintained through `updateMessages`. -/
structure StreamState where
  botText : String
  sources : Json
  messages : List Message

/-- The body of the per-frame handler after `JSON.parse` succeeded on a
non-null payload: the done branch latches `payload.sources || []`, the
token branch appends the coerced `payload.token` to the accumulator,
and in every case the last log entry is replaced by the updated
assistant message. -/
def payloadStep (st : StreamState) (payload : Json) : StreamState :=
  let isDone := jsTruthy (getField payload "done")
  let sources := if isDone then jsOr (getField payload "sources") (Json.arr []) else st.sources
  let botText :=
    if isDone then st.botText
    else
      match getField payload "token" with
      | some t => st.botText ++ jsToString t
      | none => st.botText
  { botText := botText
    sources := sources
    messages := replaceLast st.messages
      { role := "assistant"
        content := botText
        sources := if isDone then sources else Json.null
        isTyping := !isDone } }

/-- Handling of one line of a decoded chunk: lines not starting with
the SSE data marker are skipped; a line whose payload fails to parse is
skipped by the catch; a line whose payload is JSON null is also skipped
because `payload.done` then throws a TypeError that the same catch
swallows; otherwise the frame is processed by `payloadStep`. -/
def processLine (st : StreamState) (line : String) : StreamState :=
  if jsStartsWith line "data: " then
    match jsonParse (jsSlice line 6) with
    | none => st
    | some Json.null => st
    | some payload => payloadStep st payload
  else st

/-- Handling of one decoded chunk (one physical read): the chunk is
split on newlines and each resulting line is handled independently; no
undecoded remainder is carried to the next read. -/
def processChunk (st : StreamState) (chunk : String) : StreamState :=
  (jsSplitNewline chunk).foldl processLine st

/-- The `while` loop of `handleSend`: consume the decoded chunks of the
response body in order. -/
def runStream (st : StreamState) (chunks : List String) : StreamState :=
  chunks.foldl processChunk st

/-- Transport outcome of one send: a stream of chunks ending in a clean
close, a request-level failure (network error or non-success HTTP
status, thrown by `sendChat`), or a stream of chunks followed by a read
failure. -/
inductive Transport where
  | ok (chunks : List String) : Transport
  | httpError : Transport
  | readError (chunks : List String) : Transport

/-- The `handleSend` function of ChatWindow, modelled from the input
guard to the settled message log: empty (after trim) input or an
in-flight send is a no-op; otherwise the user message and the
placeholder are appended and the stream is consumed, the catch branch
replacing the last message with `errorReply` on transport failure. -/
def handleSend (msgs : List Message) (input : String) (loading : Bool) (t : Transport) :
    List Message :=
  let text := jsTrim input
  if text = "" || loading then msgs
  else
    let withBot := (msgs ++ [userMsg text]) ++ [botPlaceholder]
    match t with
    | Transport.ok chunks => (runStream ⟨"", Json.null, withBot⟩ chunks).messages
    | Transport.httpError => replaceLast withBot errorReply
    | Transport.readError chunks =>
      replaceLast (runStream ⟨"", Json.null, withBot⟩ chunks).messages errorReply

/-- A history entry as returned by the backend `GET /history` call. -/
structure HistoryMsg where
  role : String
  content : String

/-- The mapping applied to fetched history in App.jsx (both in the
mount-time refresh and in `handleSelectSession`): each entry becomes a
non-streaming message with no sources. -/
def mapHistory (ms : List HistoryMsg) : List Message :=
  ms.map fun m => { role := m.role, content := m.content, sources := Json.null, isTyping := false }

/-- Outcome of a backend history fetch. -/
inductive Fetch where
  | ok (msgs : List HistoryMsg) : Fetch
  | err : Fetch

/-- The state App.jsx keeps for the active session, together with the
content of the two localStorage keys. The persisted message slot is
modelled at the value level (the list a reader of the slot would parse
back); the raw-string view of the same slot is treated separately by
`initActiveMessages`. -/
structure AppState where
  activeId : Option String
  activeMessages : List Message
  storeActiveId : Option String
  storeMessages : List Message

/-- `setActiveId` together with the persistence effect of the
`useEffect` on `activeId`: the localStorage key mirrors the value (set
when non-null, removed when null). -/
def setActiveIdP (s : AppState) (v : Option String) : AppState :=
  { s with activeId := v, storeActiveId := v }

/-- `setActiveMessages` together with the persistence effect of the
`useEffect` on `activeMessages`: the localStorage slot mirrors the
list. -/
def setActiveMessagesP (s : AppState) (v : List Message) : AppState :=
  { s with activeMessages := v, storeMessages := v }

/-- First statement of `handleSelectSession`: clear the in-memory log. -/
def selectClear (s : AppState) : AppState :=
  setActiveMessagesP s []

/-- The synchronous body of `handleSelectSession`, before the history
fetch suspends: clear the log, then mark the session active. -/
def selectSync (s : AppState) (sid : String) : AppState :=
  setActiveIdP (selectClear s) sid

/-- All of `handleSelectSession`, with the resolution of the history
fetch: on success the log is replaced wholesale with the mapped
history, on failure the catch sets it to empty. -/
def handleSelectSession (s : AppState) (sid : String) (f : Fetch) : AppState :=
  match f with
  | Fetch.ok ms => setActiveMessagesP (selectSync s sid) (mapHistory ms)
  | Fetch.err => setActiveMessagesP (selectSync s sid) []

/-- `handleDeleteSession`: the backend delete is awaited first; if it
throws, the exception propagates and nothing after it runs (the
`Except.error` carries the state at the throw point, which is the
entry state unchanged); on success, local state and the persisted slot
are cleared exactly when the deleted session was the active one. -/
def handleDeleteSession (s : AppState) (sid : String) (backendOk : Bool) :
    Except AppState AppState :=
  if backendOk then
    Except.ok
      (if s.activeId = some sid then
        { s with activeId := none, activeMessages := [],
                 storeActiveId := none, storeMessages := [] }
      else s)
  else Except.error s

/-- The mount-time history refresh of App.jsx: on fetch success the
cached log is replaced only when the fetched history is non-empty; on
fetch failure the cached log is kept. -/
def mountRefresh (cached : List Message) (f : Fetch) : List Message :=
  match f with
  | Fetch.ok ms => if 0 < ms.length then mapHistory ms else cached
  | Fetch.err => cached

/-- The `useState` initializer for `activeMessages`:
`JSON.parse(localStorage.getItem('activeMessages') || '[]')` inside a
try/catch whose catch returns the empty list. `none` models a missing
key (`getItem` returned null); an empty stored string is falsy and
also falls back to the literal `'[]'`. -/
def initActiveMessages (stored : Option String) : Json :=
  let raw :=
    match stored with
    | some s => if s = "" then "[]" else s
    | none => "[]"
  match jsonParse raw with
  | some j => j
  | none => Json.arr []

/-- A ChatWindow fiber: its React key (the session identifier it was
mounted for, which is also the `sessionId` prop its `handleSend`
closes over), the fiber identity a state dispatch targets, and the
fiber's last rendered message state — the state React's eager dispatch
path feeds to a functional updater. -/
structure Inst where
  instId : Nat
  key : String
  messages : List Message

/-- App.jsx together with the ChatWindow fibers and React's
remount-on-key semantics, for the mid-stream session-switch race.
`mounted` is the window currently rendered under `key=activeId`;
`unmounted` are deleted, quiescent fibers from earlier session
switches, to which a stream started before the switch may still
dispatch updates. -/
structure Sys where
  activeId : Option String
  activeMessages : List Message
  storeActiveId : Option String
  storeMessages : List Message
  mounted : Option Inst
  unmounted : List Inst
  nextInstId : Nat

/-- The synchronous part of a session switch as seen by the whole
system: App clears the log and marks the new session active (both
mirrored to localStorage), and the subsequent render remounts the
ChatWindow because its key changed — the old instance is detached into
the deleted fibers and a fresh instance starts from the now-empty log.
Selecting the session that is already mounted keeps the instance. -/
def selectSessionSync (s : Sys) (sid : String) : Sys :=
  let cleared : Sys :=
    { s with activeMessages := [], storeMessages := [],
             activeId := some sid, storeActiveId := some sid }
  match s.mounted with
  | some inst =>
    if inst.key = sid then { cleared with mounted := some inst }
    else
      { cleared with mounted := some ⟨s.nextInstId, sid, []⟩,
                     unmounted := inst :: s.unmounted,
                     nextInstId := s.nextInstId + 1 }
  | none =>
    { cleared with mounted := some ⟨s.nextInstId, sid, []⟩,
                   nextInstId := s.nextInstId + 1 }

/-- One Reducer update arriving from a stream that was started inside
the fiber with identity `i`: the update goes through the captured
`updateMessages`, i.e. `setMessages` of that fiber. React's
`dispatchSetState` eagerly invokes a functional updater whenever the
target fiber has no pending lanes — which is always the case for a
deleted, quiescent fiber — feeding it the fiber's last rendered state;
the source's updater is impure and calls `onMessagesChange(next)`
inside its body, so `setActiveMessages` runs (and the persistence
effect writes the slot) even when the owning fiber was unmounted by a
session switch. The App re-render then hands the new list to the
currently mounted window as `initialMessages`, whose sync effect
adopts it as its displayed log. A dispatch to an unknown fiber
identity changes nothing. -/
def applyStreamUpdate (s : Sys) (i : Nat) (upd : List Message → List Message) : Sys :=
  match s.mounted with
  | some inst =>
    if inst.instId = i then
      let next := upd inst.messages
      { s with mounted := some { inst with messages := next },
               activeMessages := next, storeMessages := next }
    else
      match s.unmounted.find? (fun f => f.instId == i) with
      | some f =>
        let next := upd f.messages
        { s with mounted := some { inst with messages := next },
                 activeMessages := next, storeMessages := next }
      | none => s
  | none =>
    match s.unmounted.find? (fun f => f.instId == i) with
    | some f =>
      let next := upd f.messages
      { s with activeMessages := next, storeMessages := next }
    | none => s

/-- The payload of a token frame: the object `JSON.parse` returns for
a frame carrying an incremental content fragment. -/
def tokenPayload (t : String) : Json :=
  Json.obj [("token", Json.str t)]

/-- The sequence of accumulated contents carried by the successive
Reducer updates for a sequence of decoded payloads, in emission order
(one update per parsed frame, as in the source). -/
def streamContents (st : StreamState) : List Json → List String
  | [] => []
  | p :: ps => (payloadStep st p).botText :: streamContents (payloadStep st p) ps

/-- The content sequence in which each element extends the previous one
by exactly the next token: the shape the ordering guarantee of the
specification describes. -/
def accumulatedContents (base : String) : List String → List String
  | [] => []
  | t :: ts => (base ++ t) :: accumulatedContents (base ++ t) ts

/-- Effect of one token frame on the loop state: the accumulator is
extended by the token, the sources variable is untouched, and the last
log entry becomes the streaming assistant message with the extended
content. -/
theorem payloadStep_token (st : StreamState) (t : String) :
    payloadStep st (tokenPayload t) =
      { botText := st.botText ++ t
        sources := st.sources
        messages := replaceLast st.messages
          { role := "assistant", content := st.botText ++ t
            sources := Json.null, isTyping := true } } := rfl

/-- Every branch of the per-line handler leaves the log alone or
replaces its last element. -/
theorem processLine_messages_shape (st : StreamState) (line : String) :
    (processLine st line).messages = st.messages ∨
    ∃ m, (processLine st line).messages = replaceLast st.messages m := by
  unfold processLine
  split
  · split
    · left; rfl
    · left; rfl
    · right; exact ⟨_, rfl⟩
  · left; rfl

/-- Replacing the last element preserves the length of the log. -/
theorem replaceLast_length (l : List Message) (m : Message) :
    (replaceLast l m).length = l.length :=
  List.length_set l (l.length - 1) m

/-- Replacing the last element leaves every earlier position alone. -/
theorem replaceLast_getElem?_lt (l : List Message) (m : Message) (i : Nat)
    (h : i + 1 < l.length) : (replaceLast l m)[i]? = l[i]? := by
  unfold replaceLast
  exact List.getElem?_set_ne (by omega)

/-- C2. The stream loop is not chunk-boundary independent: the SSE
frame carrying token "ab", delivered in one physical read, yields the
accumulated content "ab", but the same byte stream split in the middle
of the frame into two reads yields the empty accumulated content — the
loop splits each read on newlines in isolation and carries no undecoded
remainder to the next read, so both halves of the split frame are
discarded (the first fails to parse, the second lacks the data
marker). -/
theorem chunkSplit_loses_token :
    (runStream ⟨"", Json.null, [botPlaceholder]⟩
      ["data: \x7b\"token\":\"ab\"\x7d\n\n"]).botText = "ab" ∧
    (runStream ⟨"", Json.null, [botPlaceholder]⟩
      ["data: \x7b\"tok", "en\":\"ab\"\x7d\n\n"]).botText = "" :=
  ⟨rfl, rfl⟩

/-- C3. A stream that closes cleanly after a token frame, without a
terminal done frame, settles with the last assistant message still
marked streaming: the loop exits on end-of-stream, no code path resets
the typing flag, and the catch branch is not reached, so the log keeps
a message with `isTyping = true` after `handleSend` settles. -/
theorem stuckTypingFlag_on_abruptClose :
    handleSend [] "Hello" false
        (Transport.ok ["data: \x7b\"token\":\"Hi\"\x7d\n\n"]) =
      [userMsg "Hello",
       { role := "assistant", content := "Hi", sources := Json.null, isTyping := true }] ∧
    (handleSend [] "Hello" false
        (Transport.ok ["data: \x7b\"token\":\"Hi\"\x7d\n\n"])).any
      (fun m => m.isTyping) = true :=
  ⟨rfl, rfl⟩

/-- C4. Delete atomicity: the backend delete is called first; when it
fails the error propagates carrying the entry state unchanged (active
identifier, in-memory log and persisted slot untouched); when it
succeeds and the deleted session was active, the active identifier and
the log are cleared and the persisted slot is cleared. -/
theorem deleteSession_atomicity :
    (∀ (s : AppState) (sid : String),
      handleDeleteSession s sid false = Except.error s) ∧
    (∀ (s : AppState) (sid : String), s.activeId = some sid →
      handleDeleteSession s sid true =
        Except.ok { activeId := none, activeMessages := [],
                    storeActiveId := none, storeMessages := [] }) := by
  constructor
  · intro s sid
    rfl
  · intro s sid h
    simp [handleDeleteSession, if_pos h]

/-- Witness for C4: deleting the active session "a" succeeds against
the backend and clears the identifier, the log and the persisted
slot. -/
theorem deleteSession_atomicity_witness :
    handleDeleteSession
        { activeId := some "a", activeMessages := [userMsg "x"],
          storeActiveId := some "a", storeMessages := [userMsg "x"] } "a" true =
      Except.ok { activeId := none, activeMessages := [],
                  storeActiveId := none, storeMessages := [] } :=
  deleteSession_atomicity.2 _ "a" rfl

/-- C5. Session selection clears before activating: the first
statement of `handleSelectSession` empties the in-memory log while the
active identifier is still the old one; the synchronous part then
marks the new identifier active with the log still empty, before the
asynchronous history fetch resolves; on fetch success the log is
replaced wholesale with history entries none of which is streaming,
and on fetch failure it is left empty. -/
theorem selectSession_clears_first :
    ∀ (s : AppState) (sid : String) (ms : List HistoryMsg),
      (selectClear s).activeMessages = [] ∧
      (selectClear s).activeId = s.activeId ∧
      (selectSync s sid).activeMessages = [] ∧
      (selectSync s sid).activeId = some sid ∧
      (handleSelectSession s sid (Fetch.ok ms)).activeMessages = mapHistory ms ∧
      (mapHistory ms).all (fun m => !m.isTyping) = true ∧
      (handleSelectSession s sid Fetch.err).activeMessages = [] := by
  intro s sid ms
  refine ⟨rfl, rfl, rfl, rfl, rfl, ?_, rfl⟩
  simp [mapHistory, List.all_eq_true]

/-- C6. Monotonic accumulation: for every sequence of token frames the
successive Reducer updates carry, in exactly decoding order, contents
in which each update extends the previous content by the new token and
never replaces prior content — the emitted sequence equals the chain
of successive extensions of the starting accumulator. -/
theorem tokenAccumulation_monotone :
    ∀ (st : StreamState) (ts : List String),
      streamContents st (ts.map tokenPayload) = accumulatedContents st.botText ts := by
  intro st ts
  induction ts generalizing st with
  | nil => rfl
  | cons t ts ih =>
    simp only [List.map_cons, streamContents, payloadStep_token, accumulatedContents]
    exact congrArg _ (ih _)

/-- C7. Malformed-frame tolerance: a line without the SSE data marker
changes nothing; a line whose payload is not valid JSON changes
nothing (the catch swallows the parse failure and the loop, a total
fold, continues with the next line); a parsed frame of unrecognized
shape (neither a truthy done nor a token field) leaves the accumulator
and the latched sources unchanged; and the concrete stream with one
invalid JSON line between two token frames yields the same final
content as the stream without that line. -/
theorem malformedFrame_tolerance :
    (∀ (st : StreamState) (line : String),
        jsStartsWith line "data: " = false → processLine st line = st) ∧
    (∀ (st : StreamState) (line : String),
        jsonParse (jsSlice line 6) = none → processLine st line = st) ∧
    (∀ (st : StreamState) (line : String) (payload : Json),
        jsonParse (jsSlice line 6) = some payload →
        jsTruthy (getField payload "done") = false →
        getField payload "token" = none →
        (processLine st line).botText = st.botText ∧
        (processLine st line).sources = st.sources) ∧
    ((runStream ⟨"", Json.null, [botPlaceholder]⟩
        ["data: \x7b\"token\":\"Hel\"\x7d\n",
         "data: notjson\n",
         "data: \x7b\"token\":\"lo\"\x7d\n"]).botText =
      (runStream ⟨"", Json.null, [botPlaceholder]⟩
        ["data: \x7b\"token\":\"Hel\"\x7d\n",
         "data: \x7b\"token\":\"lo\"\x7d\n"]).botText) := by
  refine ⟨?_, ?_, ?_, rfl⟩
  · intro st line h
    unfold processLine
    rw [h]
    simp
  · intro st line h
    unfold processLine
    split
    · rw [h]
    · rfl
  · intro st line payload hp hdone htok
    unfold processLine
    split
    · rw [hp]
      cases payload <;> simp_all [payloadStep]
    · exact ⟨rfl, rfl⟩

/-- Witness for C7: a line without the marker, a line with invalid
JSON, and a parsed frame of unrecognized shape each leave the loop
state (here: the accumulator) unchanged. -/
theorem malformedFrame_tolerance_witness :
    processLine ⟨"", Json.null, [botPlaceholder]⟩ "notdata" =
      (⟨"", Json.null, [botPlaceholder]⟩ : StreamState) ∧
    processLine ⟨"", Json.null, [botPlaceholder]⟩ "data: notjson" =
      (⟨"", Json.null, [botPlaceholder]⟩ : StreamState) ∧
    (processLine ⟨"", Json.null, [botPlaceholder]⟩ "data: \x7b\"x\":1\x7d").botText =
      (⟨"", Json.null, [botPlaceholder]⟩ : StreamState).botText :=
  ⟨malformedFrame_tolerance.1 _ "notdata" rfl,
   malformedFrame_tolerance.2.1 _ "data: notjson" rfl,
   (malformedFrame_tolerance.2.2.1 _ "data: \x7b\"x\":1\x7d"
      (Json.obj [("x", Json.num 1)]) rfl rfl rfl).1⟩

/-- C8 counterexample. At startup, with a non-empty cached log and a
successful history fetch returning the empty history, the in-memory
log keeps the cached entries instead of being replaced by the (empty)
fetched history: the mount-time refresh only replaces the log when the
fetched history is non-empty. -/
theorem mountRefresh_keeps_cache_on_empty :
    mountRefresh [userMsg "hi"] (Fetch.ok []) = [userMsg "hi"] ∧
    mapHistory ([] : List HistoryMsg) = [] ∧
    [userMsg "hi"] ≠ ([] : List Message) :=
  ⟨rfl, rfl, by simp⟩

/-- C8 amended. Authoritative history supersedes the cache on restart
only when it is non-empty: if the fetch succeeds with a non-empty
history the in-memory log is replaced by the fetched history; if the
fetch succeeds with an empty history, or fails, the cached log remains
in use. -/
theorem mountRefresh_supersedes :
    (∀ (cached : List Message) (ms : List HistoryMsg), ms ≠ [] →
      mountRefresh cached (Fetch.ok ms) = mapHistory ms) ∧
    (∀ cached : List Message, mountRefresh cached (Fetch.ok []) = cached) ∧
    (∀ cached : List Message, mountRefresh cached Fetch.err = cached) := by
  refine ⟨?_, fun _ => rfl, fun _ => rfl⟩
  intro cached ms h
  have hl : 0 < ms.length := List.length_pos.mpr h
  simp [mountRefresh, hl]

/-- Witness for C8: a cached log is superseded by a successfully
fetched one-entry history. -/
theorem mountRefresh_supersedes_witness :
    mountRefresh [] (Fetch.ok [⟨"user", "hi"⟩]) = mapHistory [⟨"user", "hi"⟩] :=
  mountRefresh_supersedes.1 [] [⟨"user", "hi"⟩] (by simp)

/-- C9. Streaming updates touch only the last log position: for every
line the per-frame handler processes, the log keeps its length and
every position except the last is unchanged. -/
theorem updates_touch_only_last :
    ∀ (st : StreamState) (line : String),
      (processLine st line).messages.length = st.messages.length ∧
      (∀ i : Nat, i + 1 < st.messages.length →
        (processLine st line).messages[i]? = st.messages[i]?) := by
  intro st line
  rcases processLine_messages_shape st line with h | ⟨m, h⟩
  · rw [h]
    exact ⟨rfl, fun i _ => rfl⟩
  · rw [h]
    exact ⟨replaceLast_length _ _, fun i hi => replaceLast_getElem?_lt _ _ i hi⟩

/-- Witness for C9: processing a token frame on a two-message log
leaves position 0 (the user message) unchanged. -/
theorem updates_touch_only_last_witness :
    (processLine ⟨"", Json.null, [userMsg "q", botPlaceholder]⟩
        "data: \x7b\"token\":\"x\"\x7d").messages[0]? =
      (⟨"", Json.null, [userMsg "q", botPlaceholder]⟩ : StreamState).messages[0]? :=
  (updates_touch_only_last ⟨"", Json.null, [userMsg "q", botPlaceholder]⟩
    "data: \x7b\"token\":\"x\"\x7d").2 0 (by decide)

/-- C10. A corrupted persisted log is tolerated at startup: the
initializer is a total function of the stored string; whenever the
stored string fails to parse as JSON the catch branch yields the empty
list, and a missing key also yields the empty list, so a corrupted
store never prevents initialization from producing a state. -/
theorem initActiveMessages_total :
    (∀ s : String, jsonParse s = none → initActiveMessages (some s) = Json.arr []) ∧
    initActiveMessages none = Json.arr [] := by
  refine ⟨?_, rfl⟩
  intro s h
  unfold initActiveMessages
  by_cases hs : s = ""
  · subst hs; rfl
  · simp only [if_neg hs, h]

/-- Witness for C10: a stored string that is not valid JSON
initializes the log to the empty list. -/
theorem initActiveMessages_total_witness :
    initActiveMessages (some "\x7bbad") = Json.arr [] :=
  initActiveMessages_total.1 "\x7bbad" rfl

/-- C1. Session isolation fails under a mid-stream session switch:
with a send in flight on session "A" (fiber 0, whose last rendered log
is the user message and the streaming placeholder), switching to
session "B" leaves B active with an empty log and an empty persisted
slot — but the next Reducer update from A's stream is still evaluated
by React's eager dispatch path against the deleted fiber's last
rendered state, and the impure updater's `onMessagesChange` call
writes the stale A log, extended with the new token, into the App
state displayed for B and into the persisted slot while B is the
active session. No session-identifier check exists in the code, so the
discard the claim asserts does not happen. -/
theorem staleUpdate_lands_after_switch :
    (selectSessionSync
        ⟨some "A", [userMsg "q", botPlaceholder], some "A",
         [userMsg "q", botPlaceholder],
         some ⟨0, "A", [userMsg "q", botPlaceholder]⟩, [], 1⟩ "B").activeId =
      some "B" ∧
    (selectSessionSync
        ⟨some "A", [userMsg "q", botPlaceholder], some "A",
         [userMsg "q", botPlaceholder],
         some ⟨0, "A", [userMsg "q", botPlaceholder]⟩, [], 1⟩ "B").activeMessages =
      [] ∧
    (selectSessionSync
        ⟨some "A", [userMsg "q", botPlaceholder], some "A",
         [userMsg "q", botPlaceholder],
         some ⟨0, "A", [userMsg "q", botPlaceholder]⟩, [], 1⟩ "B").storeMessages =
      [] ∧
    (applyStreamUpdate
        (selectSessionSync
          ⟨some "A", [userMsg "q", botPlaceholder], some "A",
           [userMsg "q", botPlaceholder],
           some ⟨0, "A", [userMsg "q", botPlaceholder]⟩, [], 1⟩ "B")
        0
        (fun prev => replaceLast prev
          { role := "assistant", content := "Hi", sources := Json.null,
            isTyping := true })).activeId = some "B" ∧
    (applyStreamUpdate
        (selectSessionSync
          ⟨some "A", [userMsg "q", botPlaceholder], some "A",
           [userMsg "q", botPlaceholder],
           some ⟨0, "A", [userMsg "q", botPlaceholder]⟩, [], 1⟩ "B")
        0
        (fun prev => replaceLast prev
          { role := "assistant", content := "Hi", sources := Json.null,
            isTyping := true })).activeMessages =
      [userMsg "q",
       { role := "assistant", content := "Hi", sources := Json.null,
         isTyping := true }] ∧
    (applyStreamUpdate
        (selectSessionSync
          ⟨some "A", [userMsg "q", botPlaceholder], some "A",
           [userMsg "q", botPlaceholder],
           some ⟨0, "A", [userMsg "q", botPlaceholder]⟩, [], 1⟩ "B")
        0
        (fun prev => replaceLast prev
          { role := "assistant", content := "Hi", sources := Json.null,
            isTyping := true })).storeMessages =
      [userMsg "q",
       { role := "assistant", content := "Hi", sources := Json.null,
         isTyping := true }] :=
  ⟨rfl, rfl, rfl, rfl, rfl, rfl⟩

end Rag
